import Mathlib

/-!
Verification of the `backend/app.py` request handler of the
LLM Code Deployment endpoint (`captcha-solver-test-3`).

The handler is a sequential orchestration of HTTP calls to a hosting
platform and to a caller-supplied callback URL.  We embed it shallowly:
every outbound HTTP interaction is answered by a `World` of oracle
responses, and each embedded function returns its result together with a
trace of `Event`s (outbound calls and sleeps) in the order the Python
code performs them.  Machine-level details (JSON parsing by the web
framework, network transport) are outside the embedded program, exactly
as they are outside `app.py`'s own logic.
-/

set_option autoImplicit false

namespace CaptchaSolver

/-- Python truthiness of an optional string: `None` and `""` are falsy,
any non-empty string is truthy.  Used for `if OWNER:`, `if not GH_TOKEN`,
`not all([...])` and `pages_url or default` in the source. -/
def truthyStr : Option String → Bool
  | none => false
  | some s => !s.isEmpty

/-- Whether the first list is a prefix of the second (on characters). -/
def listStartsWith : List Char → List Char → Bool
  | [], _ => true
  | _ :: _, [] => false
  | a :: as, b :: bs => a = b && listStartsWith as bs

/-- Whether `pat` occurs as a contiguous substring of the character list. -/
def listContainsSub (pat : List Char) : List Char → Bool
  | [] => listStartsWith pat []
  | c :: cs => listStartsWith pat (c :: cs) || listContainsSub pat cs

/-- Python's `pat in s` substring test. -/
def strContains (s pat : String) : Bool := listContainsSub pat.data s.data

/-- Python's `str.lower` (ASCII model, as used on the create-repo
response text). -/
def lowerStr (s : String) : String := String.mk (s.data.map Char.toLower)

/-- Value of a base64 alphabet character, `none` for a non-alphabet
character. -/
def b64Index (c : Char) : Option Nat :=
  if 'A' ≤ c ∧ c ≤ 'Z' then some (c.toNat - 'A'.toNat)
  else if 'a' ≤ c ∧ c ≤ 'z' then some (c.toNat - 'a'.toNat + 26)
  else if '0' ≤ c ∧ c ≤ '9' then some (c.toNat - '0'.toNat + 52)
  else if c = '+' then some 62
  else if c = '/' then some 63
  else none

/-- Lenient `binascii.a2b_base64` (CPython, `strict_mode=False`), one
input character at a time.  State: `quad_pos` (position inside the
current quadruple), `leftchar` (bits carried over), `pads` (pad
characters seen since the last data character) and the reversed output.
A non-alphabet, non-pad character is skipped.  A pad at `quad_pos ≥ 2`
that completes the quadruple (`quad_pos + pads + 1 ≥ 4`) ends decoding,
discarding the rest of the input; a pad at `quad_pos < 2` is ignored.
At end of input, a non-zero `quad_pos` is an error (`binascii.Error`,
here `none`). -/
def a2b_base64_go : List Char → Nat → Nat → Nat → List Nat → Option (List Nat)
  | [], quad_pos, _, _, acc => if quad_pos ≠ 0 then none else some acc.reverse
  | c :: rest, quad_pos, leftchar, pads, acc =>
    if c = '=' then
      if 2 ≤ quad_pos then
        if 4 ≤ quad_pos + (pads + 1) then some acc.reverse
        else a2b_base64_go rest quad_pos leftchar (pads + 1) acc
      else a2b_base64_go rest quad_pos leftchar pads acc
    else
      match b64Index c with
      | none => a2b_base64_go rest quad_pos leftchar pads acc
      | some d =>
        match quad_pos with
        | 0 => a2b_base64_go rest 1 d 0 acc
        | 1 => a2b_base64_go rest 2 (d % 16) 0 ((leftchar * 4 + d / 16) :: acc)
        | 2 => a2b_base64_go rest 3 (d % 4) 0 ((leftchar * 16 + d / 4) :: acc)
        | _ => a2b_base64_go rest 0 0 0 ((leftchar * 64 + d) :: acc)

/-- `base64.b64decode` on a `str` with default `validate=False`: the
string is ASCII-encoded first (a non-ASCII character raises
`ValueError`, here `none`), then decoded leniently. -/
def b64decode (payload : List Char) : Option (List Nat) :=
  if payload.all (fun c => c.toNat < 128) then a2b_base64_go payload 0 0 0 []
  else none

/-- Embeds `_parse_data_uri`: matches
`^data:[^;]+;base64,(.*)$` and base64-decodes the captured payload.
`.` does not cross a newline and `$` tolerates one trailing newline,
as in Python's `re.match`.  Any failure (`ValueError` from the regex or
`binascii.Error` from the decoder) is `none`. -/
def parse_data_uri (uri : String) : Option (List Nat) :=
  let cs := uri.data
  if listStartsWith "data:".data cs then
    let rest := cs.drop 5
    let mediatype := rest.takeWhile (fun c => c ≠ ';')
    if mediatype.length = 0 then none
    else
      let rest2 := rest.drop mediatype.length
      if listStartsWith ";base64,".data rest2 then
        let payload := rest2.drop 8
        let payload := if payload.getLast? = some '\n' then payload.dropLast else payload
        if payload.contains '\n' then none
        else b64decode payload
      else none
  else none

/-- UTF-8 encoding of one character (the handler calls `.encode()` on
its file texts). -/
def utf8Bytes (c : Char) : List Nat :=
  let n := c.toNat
  if n < 0x80 then [n]
  else if n < 0x800 then [0xC0 + n / 64, 0x80 + n % 64]
  else if n < 0x10000 then [0xE0 + n / 4096, 0x80 + n / 64 % 64, 0x80 + n % 64]
  else [0xF0 + n / 262144, 0x80 + n / 4096 % 64, 0x80 + n / 64 % 64, 0x80 + n % 64]

/-- Python `str.encode()` (UTF-8 bytes). -/
def encodeUtf8 (s : String) : List Nat := s.data.flatMap utf8Bytes

/-- Embeds `MIT_TEXT.format(year=year, owner=owner)`: the module-level
MIT license template with its two placeholders interpolated. -/
def MIT_TEXT_format (year : Nat) (owner : String) : String :=
  "MIT License\n\nCopyright (c) " ++ toString year ++ " " ++ owner ++
    "\n\nPermission is hereby granted, free of charge, to any person obtaining a copy ...\n"

/-- Embeds the module-level `PAGES_WORKFLOW` constant. -/
def PAGES_WORKFLOW : String :=
  "name: Deploy Pages\non:\n  push:\n    branches: [ \"main\" ]\n  workflow_dispatch:\npermissions:\n  contents: read\n  pages: write\n  id-token: write\nconcurrency:\n  group: \"pages\"\n  cancel-in-progress: true\njobs:\n  build:\n    runs-on: ubuntu-latest\n    steps:\n      - uses: actions/checkout@v4\n      - uses: actions/configure-pages@v5\n        with:\n          enablement: enabled\n      - uses: actions/upload-pages-artifact@v3\n        with:\n          path: .\n  deploy:\n    needs: build\n    runs-on: ubuntu-latest\n    environment:\n      name: github-pages\n      url: $\x7b\x7b steps.deployment.outputs.page_url \x7d\x7d\n    steps:\n      - id: deployment\n        uses: actions/deploy-pages@v4\n"

/-- Embeds the module-level `INDEX_HTML` constant. -/
def INDEX_HTML : String :=
  "<!doctype html>\n<html lang=\"en\">\n<head>\n  <meta charset=\"utf-8\">\n  <title>Captcha Solver</title>\n  <meta name=\"viewport\" content=\"width=device-width,initial-scale=1\">\n  <script src=\"https://unpkg.com/tesseract.js@v4.0.2/dist/tesseract.min.js\"></script>\n  <style>body\x7bfont-family:system-ui,Segoe UI,Arial;margin:2rem;max-width:800px\x7d</style>\n</head>\n<body>\n  <h1>Captcha Solver</h1>\n  <p>Pass an image via <code>?url=...</code>. Falls back to <code>sample.png</code> if present.</p>\n  <img id=\"captcha\" alt=\"captcha\" style=\"max-width:100%;border:1px solid #ccc;padding:8px\">\n  <pre id=\"status\" aria-live=\"polite\">idle…</pre>\n  <h2>Result</h2>\n  <div id=\"result\" style=\"font-size:1.25rem;font-weight:700;\"></div>\n  <script>\n    const qs = new URLSearchParams(location.search);\n    const url = qs.get(\x27url\x27) || \x27sample.png\x27;\n    const img = document.getElementById(\x27captcha\x27);\n    const status = document.getElementById(\x27status\x27);\n    const result = document.getElementById(\x27result\x27);\n    img.src = url;\n    (async () => \x7b\n      try \x7b\n        status.textContent = \x27Solving…\x27;\n        const watchdog = setTimeout(() => \x7b throw new Error(\x27Timeout after 15s\x27); \x7d, 15000);\n        const \x7b data: \x7b text \x7d \x7d = await Tesseract.recognize(url, \x27eng\x27, \x7b\n          logger: m => \x7b if (m.status) status.textContent = m.status; \x7d\n        \x7d);\n        clearTimeout(watchdog);\n        result.textContent = (text || \x27\x27).trim();\n        status.textContent = \x27Done\x27;\n      \x7d catch (e) \x7b\n        status.textContent = \x27Failed: \x27 + (e.message || e);\n      \x7d\n    \x7d)();\n  </script>\n</body>\n</html>\n"

/-- Embeds the module-level `README_MD` constant. -/
def README_MD : String :=
  "# Captcha Solver\nStatic page that accepts ?url= and OCRs image using Tesseract.js.\nFalls back to sample.png if provided.\n\n## License\nMIT\n"

/-- A JSON scalar as the web framework hands it to the handler; used to
model the `round` field, which the handler passes through Python's
`int(...)`. -/
inductive PyVal where
  | vint (n : Int)
  | vstr (s : String)
  | vnull
deriving DecidableEq, Repr

/-- Code points Python's `int(str)` strips as surrounding whitespace
(verified against CPython 3.11: `int(c + "5") = int("5" + c) = 5`). -/
def pyIntSpaceCodes : List Nat :=
  [9, 10, 11, 12, 13, 32, 133, 160, 5760, 8192, 8193, 8194, 8195, 8196, 8197,
   8198, 8199, 8200, 8201, 8202, 8232, 8233, 8239, 8287, 12288]

/-- Whether `int(str)` strips this character at either end. -/
def isPyIntSpace (c : Char) : Bool := pyIntSpaceCodes.contains c.toNat

/-- First code points of the contiguous `0`-`9` runs of Unicode decimal
digits (category Nd) accepted by `int(str)`, per CPython 3.11's Unicode
tables (every Nd block is such a run). -/
def pyDigitRangeStarts : List Nat :=
  [48, 1632, 1776, 1984, 2406, 2534, 2662, 2790, 2918, 3046, 3174, 3302, 3430,
   3558, 3664, 3792, 3872, 4160, 4240, 6112, 6160, 6470, 6608, 6784, 6800,
   6992, 7088, 7232, 7248, 42528, 43216, 43264, 43472, 43504, 43600, 44016,
   65296, 66720, 68912, 69734, 69872, 69942, 70096, 70384, 70736, 70864,
   71248, 71360, 71472, 71904, 72016, 72784, 73040, 73120, 92768, 92864,
   93008, 120782, 120792, 120802, 120812, 120822, 123200, 123632, 125264,
   130032]

/-- Decimal value of a Unicode digit accepted by `int(str)`, `none` for
a non-digit. -/
def pyDigitVal (c : Char) : Option Nat :=
  pyDigitRangeStarts.findSome?
    (fun s => if s ≤ c.toNat && c.toNat < s + 10 then some (c.toNat - s) else none)

/-- Split a character list into the groups separated by `_`. -/
def splitUnderscores : List Char → List (List Char)
  | [] => [[]]
  | '_' :: rest => [] :: splitUnderscores rest
  | c :: rest =>
    match splitUnderscores rest with
    | g :: gs => (c :: g) :: gs
    | [] => [[c]]

/-- Value of the digit part of an `int(str)` literal: one or more
decimal digits with optional single `_` separators between digits
(PEP 515); anything else — including an empty part — is `none`. -/
def pyDigitsVal (ds : List Char) : Option Nat :=
  if (splitUnderscores ds).all
      (fun g => !g.isEmpty && g.all (fun c => (pyDigitVal c).isSome)) then
    some ((ds.filter (fun c => c ≠ '_')).foldl
      (fun a c => a * 10 + ((pyDigitVal c).getD 0)) 0)
  else none

/-- Python's `int(str)`: strip surrounding whitespace, then an optional
single ASCII sign followed by the underscore-grouped digits; anything
else raises `ValueError` (here `none`). -/
def pyIntOfString (s : String) : Option Int :=
  let cs := ((s.data.dropWhile isPyIntSpace).reverse.dropWhile isPyIntSpace).reverse
  match cs with
  | '-' :: ds => (pyDigitsVal ds).map (fun n => -(n : Int))
  | '+' :: ds => (pyDigitsVal ds).map (fun n => (n : Int))
  | ds => (pyDigitsVal ds).map (fun n => (n : Int))

/-- Python's `int(...)` applied to a JSON scalar: an integer is itself,
a string is parsed as a decimal numeral, everything else raises (here
`none`). -/
def pyInt : PyVal → Option Int
  | .vint n => some n
  | .vstr s => pyIntOfString s
  | .vnull => none

/-- The exception `int(...)` raises on a value it cannot convert:
`ValueError` for a string, `TypeError` for `None`. -/
def pyIntExnMsg : PyVal → String
  | .vint _ => ""
  | .vstr _ => "ValueError: invalid literal for int() with base 10"
  | .vnull => "TypeError: int() argument must be a string, a bytes-like object or a real number"

/-- Process configuration read from the environment at startup:
`GH_TOKEN`, `SHARED_SECRET`, optional `GITHUB_OWNER`. -/
structure Config where
  ghToken : Option String
  sharedSecret : Option String
  owner : Option String
deriving DecidableEq, Repr

/-- One element of the request's `attachments` list.  `none` for a key
the JSON object lacks (`att["name"]` / `att["url"]` then raise
`KeyError`). -/
structure Att where
  name : Option String
  url : Option String
deriving DecidableEq, Repr

/-- The parsed JSON body of `POST /request`, restricted to the keys the
handler reads.  `none` models an absent key (`data.get` returns
`None`). -/
structure Req where
  secret : Option String
  email : Option String
  task : Option String
  nonce : Option String
  evaluation_url : Option String
  round : Option PyVal
  attachments : List Att
deriving DecidableEq, Repr

/-- The result payload the handler both POSTs to `evaluation_url` and
returns (under `"ok": True`) to its own caller. -/
structure Payload where
  email : String
  task : String
  round : Int
  nonce : String
  repo_url : String
  commit_sha : String
  pages_url : String
deriving DecidableEq, Repr

/-- One observable step of the handler: an outbound HTTP call or a
`time.sleep`. -/
inductive Event where
  | getUser
  | createRepo (owner repo : String)
  | putFile (owner repo path : String) (content : List Nat) (message : String)
  | getPages (owner repo : String)
  | postCallback (url : String) (payload : Payload)
  | sleep (seconds : Nat)
deriving DecidableEq, Repr

/-- How the handler terminates abnormally: a raised
`fastapi.HTTPException` (status, detail) or any other uncaught Python
exception. -/
inductive Failure where
  | httpException (status : Nat) (detail : String)
  | exn (msg : String)
deriving DecidableEq, Repr

/-- Outcome of `POST /request`: the 200 response carrying the payload,
or an error. -/
inductive HResult where
  | ok (payload : Payload)
  | err (f : Failure)
deriving DecidableEq, Repr

/-- Oracle responses of the outside world, indexed by call position
where the handler can issue the same call repeatedly.
`userStatus`/`userLogin`: `GET /user` status and its `login` field;
`createStatus`/`createText`: repo-creation status and response text;
`putResp i`: status and `commit.sha` field of the `i`-th file write;
`pagesResp i`: status and `html_url` field of the `i`-th pages poll;
`cbResp i`: status of the `i`-th callback POST, `none` when the attempt
raises; `year`: `time.gmtime().tm_year`. -/
structure World where
  userStatus : Nat
  userLogin : Option String
  createStatus : Nat
  createText : String
  putResp : Nat → Nat × Option String
  pagesResp : Nat → Nat × Option String
  cbResp : Nat → Option Nat
  year : Nat

/-- Whether `httpx`'s `raise_for_status` raises for this status code
(client or server error, 4xx/5xx). -/
def raisesForStatus (status : Nat) : Bool := 400 ≤ status && status < 600

/-- Embeds `_need_env`: `True` exactly when the handler raises the 500
"Missing GH_TOKEN or SHARED_SECRET" (a falsy token or secret). -/
def need_env (cfg : Config) : Bool :=
  !truthyStr cfg.ghToken || !truthyStr cfg.sharedSecret

/-- Embeds `_gh_owner`: the configured override when truthy, otherwise
`GET /user` (`raise_for_status`, then the `login` field; a missing field
is a `KeyError`). -/
def gh_owner (cfg : Config) (w : World) : Except Failure String × List Event :=
  if truthyStr cfg.owner then (Except.ok (cfg.owner.getD ""), [])
  else if raisesForStatus w.userStatus then
    (Except.error (.exn "HTTPStatusError"), [Event.getUser])
  else
    match w.userLogin with
    | some login => (Except.ok login, [Event.getUser])
    | none => (Except.error (.exn "KeyError"), [Event.getUser])

/-- Embeds `_gh_create_repo`: `POST /user/repos`; raises
`HTTPException 500` unless the status is 201 or the lowercased response
text contains `"exists"`. -/
def gh_create_repo (w : World) (owner repo : String) : Except Failure Unit × List Event :=
  ((if w.createStatus ≠ 201 && !strContains (lowerStr w.createText) "exists" then
      Except.error (.httpException 500 ("Create repo failed: " ++ w.createText))
    else Except.ok ()),
   [Event.createRepo owner repo])

/-- Embeds `_gh_put_file` for the `idx`-th write of the request: `PUT`
the content, `raise_for_status`, then return `json()["commit"]["sha"]`
(a missing field is a `KeyError`). -/
def gh_put_file (w : World) (idx : Nat) (owner repo path : String) (content : List Nat) :
    Except Failure String × List Event :=
  ((if raisesForStatus (w.putResp idx).1 then Except.error (.exn "HTTPStatusError")
    else
      match (w.putResp idx).2 with
      | some s => Except.ok s
      | none => Except.error (.exn "KeyError")),
   [Event.putFile owner repo path content ("add " ++ path)])

/-- Embeds `_gh_pages_url` for the `attempt`-th poll: the `html_url`
field when the status is 200, `None` otherwise. -/
def gh_pages_url (w : World) (attempt : Nat) (owner repo : String) :
    Option String × List Event :=
  let (status, htmlUrl) := w.pagesResp attempt
  ((if status = 200 then htmlUrl else none), [Event.getPages owner repo])

/-- The handler's pages-polling loop, `fuel` iterations remaining and
`attempt` polls already made: fetch, break on a truthy URL, otherwise
sleep 5 and continue; on exhaustion `pages_url` holds the last fetched
value (initially `None`). -/
def pollLoop (w : World) (owner repo : String) : Nat → Nat → Option String → Option String × List Event
  | _, 0, cur => (cur, [])
  | attempt, fuel + 1, _ =>
    let (u, ev) := gh_pages_url w attempt owner repo
    if truthyStr u then (u, ev)
    else
      let (res, evs) := pollLoop w owner repo (attempt + 1) fuel u
      (res, ev ++ Event.sleep 5 :: evs)

/-- The `for _ in range(12)` pages-availability poll in `handle`. -/
def pollPages (w : World) (owner repo : String) : Option String × List Event :=
  pollLoop w owner repo 0 12 none

/-- The retry loop of `_post_with_backoff`, with `fuel` attempts
remaining, `attempt` attempts already made and the current `delay`:
POST; return `True` on status 200; otherwise (non-200 or exception)
sleep `delay`, double it and continue. -/
def backoffLoop (w : World) (url : String) (payload : Payload) :
    Nat → Nat → Nat → Bool × List Event
  | _, 0, _ => (false, [])
  | attempt, fuel + 1, delay =>
    let ev := Event.postCallback url payload
    if w.cbResp attempt = some 200 then (true, [ev])
    else
      let (res, evs) := backoffLoop w url payload (attempt + 1) fuel (delay * 2)
      (res, ev :: Event.sleep delay :: evs)

/-- Embeds `_post_with_backoff`: up to 6 attempts, delay starting at 1
and doubling after every failed attempt. -/
def post_with_backoff (w : World) (url : String) (payload : Payload) : Bool × List Event :=
  backoffLoop w url payload 0 6 1

/-- The four fixed files `handle` always publishes, in source order. -/
def fixedFiles (year : Nat) (owner : String) : List (String × List Nat) :=
  [("LICENSE", encodeUtf8 (MIT_TEXT_format year owner)),
   ("README.md", encodeUtf8 README_MD),
   (".github/workflows/pages.yml", encodeUtf8 PAGES_WORKFLOW),
   ("index.html", encodeUtf8 INDEX_HTML)]

/-- The attachment loop of `handle`: append `(att["name"],
_parse_data_uri(att["url"]))` for each attachment, skipping any
attachment whose lookup or decode raises. -/
def attachLoop : List Att → List (String × List Nat)
  | [] => []
  | att :: rest =>
    match att.name, att.url with
    | some n, some u =>
      match parse_data_uri u with
      | some content => (n, content) :: attachLoop rest
      | none => attachLoop rest
    | _, _ => attachLoop rest

/-- The full file list `handle` publishes: the four fixed entries, then
the successfully decoded attachments in caller order. -/
def buildFiles (year : Nat) (owner : String) (attachments : List Att) :
    List (String × List Nat) :=
  fixedFiles year owner ++ attachLoop attachments

/-- The `for p, c in files` publication loop of `handle`, issuing the
`idx`-th and later writes; `lastCommit` is the running `last_commit`
(initially `""`).  A failed write propagates immediately, aborting the
remaining writes. -/
def putLoop (w : World) (owner repo : String) :
    List (String × List Nat) → Nat → String → Except Failure String × List Event
  | [], _, lastCommit => (Except.ok lastCommit, [])
  | (path, content) :: rest, idx, _ =>
    match gh_put_file w idx owner repo path content with
    | (Except.error f, ev) => (Except.error f, ev)
    | (Except.ok sha, ev) =>
      let (res, evs) := putLoop w owner repo rest (idx + 1) sha
      (res, ev ++ evs)

/-- The repository name `handle` derives from the task identifier:
`task.replace("/", "-")`.  For the single-character arguments used
here, Python's `str.replace` maps every occurrence of the character. -/
def repoName (task : String) : String :=
  String.mk (task.data.map (fun c => if c = '/' then '-' else c))

/-- The `payload` dictionary `handle` builds after publication: request
identity fields plus the derived repository URL, the last commit sha and
the polled pages URL (`pages_url or` the constructed default). -/
def mkPayload (w : World) (req : Req) (round_idx : Int) (owner lastCommit : String) : Payload :=
  let repo := repoName (req.task.getD "")
  { email := req.email.getD ""
    task := req.task.getD ""
    round := round_idx
    nonce := req.nonce.getD ""
    repo_url := "https://github.com/" ++ owner ++ "/" ++ repo
    commit_sha := lastCommit
    pages_url :=
      if truthyStr (pollPages w owner repo).1 then (pollPages w owner repo).1.getD ""
      else "https://" ++ owner ++ ".github.io/" ++ repo ++ "/" }

/-- Embeds the `POST /request` handler `handle`, given the process
configuration, the world's oracle responses and the parsed request
body.  Returns the HTTP outcome and the ordered trace of outbound
calls and sleeps. -/
def handle (cfg : Config) (w : World) (req : Req) : HResult × List Event :=
  if need_env cfg then
    (.err (.httpException 500 "Missing GH_TOKEN or SHARED_SECRET"), [])
  else if req.secret ≠ cfg.sharedSecret then
    (.err (.httpException 403 "Invalid secret"), [])
  else
    match pyInt (req.round.getD (PyVal.vint 1)) with
    | none => (.err (.exn (pyIntExnMsg (req.round.getD (PyVal.vint 1)))), [])
    | some round_idx =>
      if !(truthyStr req.email && truthyStr req.task && truthyStr req.nonce &&
           truthyStr req.evaluation_url) then
        (.err (.httpException 400 "Missing required fields"), [])
      else
        match gh_owner cfg w with
        | (Except.error f, ev1) => (.err f, ev1)
        | (Except.ok owner, ev1) =>
          let repo := repoName (req.task.getD "")
          match gh_create_repo w owner repo with
          | (Except.error f, ev2) => (.err f, ev1 ++ ev2)
          | (Except.ok _, ev2) =>
            let files := buildFiles w.year owner req.attachments
            match putLoop w owner repo files 0 "" with
            | (Except.error f, ev3) => (.err f, ev1 ++ ev2 ++ ev3)
            | (Except.ok lastCommit, ev3) =>
              let (_, ev4) := pollPages w owner repo
              let payload := mkPayload w req round_idx owner lastCommit
              let (_, ev5) := post_with_backoff w (req.evaluation_url.getD "") payload
              (.ok payload, ev1 ++ ev2 ++ ev3 ++ ev4 ++ ev5)

/-- Number of callback-POST attempts recorded in a trace. -/
def countPosts : List Event → Nat
  | [] => 0
  | Event.postCallback _ _ :: rest => countPosts rest + 1
  | _ :: rest => countPosts rest

/-- Number of pages-status polls recorded in a trace. -/
def countPolls : List Event → Nat
  | [] => 0
  | Event.getPages _ _ :: rest => countPolls rest + 1
  | _ :: rest => countPolls rest

/-- Total time slept along a trace. -/
def sleepTotal : List Event → Nat
  | [] => 0
  | Event.sleep s :: rest => s + sleepTotal rest
  | _ :: rest => sleepTotal rest

/-- The durations of the sleeps in a trace, in order. -/
def sleepList : List Event → List Nat
  | [] => []
  | Event.sleep s :: rest => s :: sleepList rest
  | _ :: rest => sleepList rest

/-- The paths of the file writes in a trace, in order. -/
def putPaths : List Event → List String
  | [] => []
  | Event.putFile _ _ path _ _ :: rest => path :: putPaths rest
  | _ :: rest => putPaths rest

/-- Whether a trace contains any outbound HTTP call (anything but a
sleep counts). -/
def hasUpstreamCall : List Event → Bool
  | [] => false
  | Event.sleep _ :: rest => hasUpstreamCall rest
  | _ :: _ => true

/-! ### Lemmas about the callback retry loop -/

theorem countPosts_backoffLoop_le (w : World) (url : String) (p : Payload) :
    ∀ (fuel attempt delay : Nat),
      countPosts (backoffLoop w url p attempt fuel delay).2 ≤ fuel := by
  intro fuel
  induction fuel with
  | zero => intro attempt delay; simp [backoffLoop, countPosts]
  | succ f ih =>
    intro attempt delay
    by_cases h : w.cbResp attempt = some 200
    · simp [backoffLoop, h, countPosts]
    · simp only [backoffLoop, h, if_false, countPosts]
      have := ih (attempt + 1) (delay * 2)
      omega

theorem backoffLoop_true_iff (w : World) (url : String) (p : Payload) :
    ∀ (fuel attempt delay : Nat),
      (backoffLoop w url p attempt fuel delay).1 = true ↔
        ∃ i, i < fuel ∧ w.cbResp (attempt + i) = some 200 := by
  intro fuel
  induction fuel with
  | zero => intro attempt delay; simp [backoffLoop]
  | succ f ih =>
    intro attempt delay
    by_cases h : w.cbResp attempt = some 200
    · simp only [backoffLoop, h, if_true]
      constructor
      · intro _; exact ⟨0, Nat.succ_pos f, by simpa using h⟩
      · intro _; trivial
    · simp only [backoffLoop, h, if_false]
      rw [ih (attempt + 1) (delay * 2)]
      constructor
      · rintro ⟨i, hi, hok⟩
        exact ⟨i + 1, by omega, by simpa [Nat.add_comm, Nat.add_left_comm] using hok⟩
      · rintro ⟨i, hi, hok⟩
        match i, hi, hok with
        | 0, _, hok => exact absurd (by simpa using hok) h
        | i + 1, hi, hok =>
          exact ⟨i, by omega, by simpa [Nat.add_comm, Nat.add_left_comm] using hok⟩

theorem backoffLoop_first_success (w : World) (url : String) (p : Payload) :
    ∀ (k fuel attempt delay : Nat), k < fuel →
      (∀ j, j < k → w.cbResp (attempt + j) ≠ some 200) →
      w.cbResp (attempt + k) = some 200 →
      (backoffLoop w url p attempt fuel delay).1 = true ∧
        countPosts (backoffLoop w url p attempt fuel delay).2 = k + 1 ∧
        sleepList (backoffLoop w url p attempt fuel delay).2 =
          (List.range k).map (fun j => delay * 2 ^ j) := by
  intro k
  induction k with
  | zero =>
    intro fuel attempt delay hk _ hsucc
    match fuel, hk with
    | f + 1, _ =>
      simp only [Nat.add_zero] at hsucc
      simp [backoffLoop, hsucc, countPosts, sleepList]
  | succ k ih =>
    intro fuel attempt delay hk hfail hsucc
    match fuel, hk with
    | f + 1, hk =>
      have h0 : w.cbResp attempt ≠ some 200 := by
        simpa using hfail 0 (Nat.succ_pos k)
      simp only [backoffLoop, h0, if_false]
      have ihh := ih f (attempt + 1) (delay * 2) (by omega)
        (fun j hj => by
          have := hfail (j + 1) (by omega)
          simpa [Nat.add_comm, Nat.add_left_comm] using this)
        (by simpa [Nat.add_comm, Nat.add_left_comm] using hsucc)
      refine ⟨ihh.1, ?_, ?_⟩
      · simp only [countPosts, sleepList]
        omega
      · simp only [countPosts, sleepList, ihh.2.2, List.range_succ_eq_map,
          List.map_cons, List.map_map]
        refine congrArg₂ _ (by ring) ?_
        refine List.map_congr_left ?_
        intro j _
        simp [Function.comp, pow_succ]
        ring

theorem sleepTotal_eq_sum_sleepList : ∀ tr : List Event, sleepTotal tr = (sleepList tr).sum := by
  intro tr
  induction tr with
  | nil => rfl
  | cons e rest ih => cases e <;> simp [sleepTotal, sleepList, ih]

theorem backoffLoop_sleep_doubling (w : World) (url : String) (p : Payload) :
    ∀ (fuel attempt delay : Nat), ∃ n, n ≤ fuel ∧
      sleepList (backoffLoop w url p attempt fuel delay).2 =
        (List.range n).map (fun j => delay * 2 ^ j) := by
  intro fuel
  induction fuel with
  | zero => intro attempt delay; exact ⟨0, Nat.le_refl 0, by simp [backoffLoop, sleepList]⟩
  | succ f ih =>
    intro attempt delay
    by_cases h : w.cbResp attempt = some 200
    · exact ⟨0, Nat.zero_le _, by simp [backoffLoop, h, sleepList]⟩
    · obtain ⟨n, hn, hlist⟩ := ih (attempt + 1) (delay * 2)
      refine ⟨n + 1, by omega, ?_⟩
      simp only [backoffLoop, h, if_false, sleepList, hlist, List.range_succ_eq_map,
        List.map_cons, List.map_map]
      refine congrArg₂ _ (by ring) ?_
      refine List.map_congr_left ?_
      intro j _
      simp [Function.comp, pow_succ]
      ring

/-! ### Lemmas about the pages-availability poll loop -/

theorem pollLoop_succ (w : World) (owner repo : String) (attempt fuel : Nat) (cur : Option String) :
    pollLoop w owner repo attempt (fuel + 1) cur =
      if truthyStr (gh_pages_url w attempt owner repo).1 then
        ((gh_pages_url w attempt owner repo).1, (gh_pages_url w attempt owner repo).2)
      else
        ((pollLoop w owner repo (attempt + 1) fuel (gh_pages_url w attempt owner repo).1).1,
         (gh_pages_url w attempt owner repo).2 ++ Event.sleep 5 ::
           (pollLoop w owner repo (attempt + 1) fuel (gh_pages_url w attempt owner repo).1).2) := by
  rfl

theorem gh_pages_url_snd (w : World) (attempt : Nat) (owner repo : String) :
    (gh_pages_url w attempt owner repo).2 = [Event.getPages owner repo] := rfl

theorem countPolls_pollLoop_le (w : World) (owner repo : String) :
    ∀ (fuel attempt : Nat) (cur : Option String),
      countPolls (pollLoop w owner repo attempt fuel cur).2 ≤ fuel := by
  intro fuel
  induction fuel with
  | zero => intro attempt cur; simp [pollLoop, countPolls]
  | succ f ih =>
    intro attempt cur
    rw [pollLoop_succ]
    by_cases h : truthyStr (gh_pages_url w attempt owner repo).1 = true
    · rw [if_pos h]
      simp [gh_pages_url_snd, countPolls]
    · rw [if_neg h]
      simp only [gh_pages_url_snd, List.cons_append, List.nil_append, countPolls]
      have := ih (attempt + 1) (gh_pages_url w attempt owner repo).1
      omega

theorem sleepList_pollLoop (w : World) (owner repo : String) :
    ∀ (fuel attempt : Nat) (cur : Option String) (s : Nat),
      s ∈ sleepList (pollLoop w owner repo attempt fuel cur).2 → s = 5 := by
  intro fuel
  induction fuel with
  | zero => intro attempt cur s hs; simp [pollLoop, sleepList] at hs
  | succ f ih =>
    intro attempt cur s hs
    rw [pollLoop_succ] at hs
    by_cases h : truthyStr (gh_pages_url w attempt owner repo).1 = true
    · rw [if_pos h] at hs
      simp [gh_pages_url_snd, sleepList] at hs
    · rw [if_neg h] at hs
      simp only [gh_pages_url_snd, List.cons_append, List.nil_append, sleepList,
        List.mem_cons] at hs
      rcases hs with hs | hs
      · exact hs
      · exact ih (attempt + 1) _ s hs

theorem pollLoop_first_success (w : World) (owner repo : String) :
    ∀ (k fuel attempt : Nat) (cur : Option String), k < fuel →
      (∀ j, j < k → truthyStr (gh_pages_url w (attempt + j) owner repo).1 = false) →
      truthyStr (gh_pages_url w (attempt + k) owner repo).1 = true →
      (pollLoop w owner repo attempt fuel cur).1 = (gh_pages_url w (attempt + k) owner repo).1
      ∧ countPolls (pollLoop w owner repo attempt fuel cur).2 = k + 1 := by
  intro k
  induction k with
  | zero =>
    intro fuel attempt cur hk _ hsucc
    match fuel, hk with
    | f + 1, _ =>
      simp only [Nat.add_zero] at hsucc
      rw [pollLoop_succ, if_pos hsucc]
      simp [gh_pages_url_snd, countPolls]
  | succ k ih =>
    intro fuel attempt cur hk hfail hsucc
    match fuel, hk with
    | f + 1, hk =>
      have h0 : truthyStr (gh_pages_url w attempt owner repo).1 = false := by
        simpa using hfail 0 (Nat.succ_pos k)
      rw [pollLoop_succ, if_neg (by simp [h0])]
      have ihh := ih f (attempt + 1) (gh_pages_url w attempt owner repo).1 (by omega)
        (fun j hj => by
          have := hfail (j + 1) (by omega)
          simpa [Nat.add_comm, Nat.add_left_comm] using this)
        (by simpa [Nat.add_comm, Nat.add_left_comm] using hsucc)
      constructor
      · rw [ihh.1]
        exact congrArg (fun i => (gh_pages_url w i owner repo).1) (by omega)
      · simp only [gh_pages_url_snd, List.cons_append, List.nil_append, countPolls]
        omega

theorem pollLoop_exhaust (w : World) (owner repo : String) :
    ∀ (fuel attempt : Nat) (cur : Option String),
      (∀ j, j < fuel → truthyStr (gh_pages_url w (attempt + j) owner repo).1 = false) →
      truthyStr cur = false →
      truthyStr (pollLoop w owner repo attempt fuel cur).1 = false
      ∧ countPolls (pollLoop w owner repo attempt fuel cur).2 = fuel := by
  intro fuel
  induction fuel with
  | zero => intro attempt cur _ hcur; exact ⟨hcur, by simp [pollLoop, countPolls]⟩
  | succ f ih =>
    intro attempt cur hfail hcur
    have h0 : truthyStr (gh_pages_url w attempt owner repo).1 = false := by
      simpa using hfail 0 (Nat.succ_pos f)
    rw [pollLoop_succ, if_neg (by simp [h0])]
    have ihh := ih (attempt + 1) (gh_pages_url w attempt owner repo).1
      (fun j hj => by
        have := hfail (j + 1) (by omega)
        simpa [Nat.add_comm, Nat.add_left_comm] using this)
      h0
    refine ⟨ihh.1, ?_⟩
    simp only [gh_pages_url_snd, List.cons_append, List.nil_append, countPolls]
    omega

/-! ### Lemmas about the file-publication loop -/

theorem gh_put_file_snd (w : World) (idx : Nat) (owner repo path : String) (content : List Nat) :
    (gh_put_file w idx owner repo path content).2 =
      [Event.putFile owner repo path content (String.append "add " path)] := rfl

theorem gh_put_file_fst_ok (w : World) (idx : Nat) (owner repo path : String) (content : List Nat)
    (h1 : raisesForStatus (w.putResp idx).1 = false)
    (h2 : ((w.putResp idx).2).isSome = true) :
    (gh_put_file w idx owner repo path content).1 = Except.ok (((w.putResp idx).2).getD "") := by
  simp only [gh_put_file, h1, Bool.false_eq_true, if_false]
  rcases h : (w.putResp idx).2 with _ | s
  · rw [h] at h2; simp at h2
  · simp

theorem gh_put_file_fst_err (w : World) (idx : Nat) (owner repo path : String) (content : List Nat)
    (h1 : raisesForStatus (w.putResp idx).1 = true) :
    (gh_put_file w idx owner repo path content).1 = Except.error (Failure.exn "HTTPStatusError") := by
  simp [gh_put_file, h1]

theorem putLoop_cons (w : World) (owner repo path : String) (content : List Nat)
    (rest : List (String × List Nat)) (idx : Nat) (last : String) :
    putLoop w owner repo ((path, content) :: rest) idx last =
      match (gh_put_file w idx owner repo path content).1 with
      | Except.error f => (Except.error f, (gh_put_file w idx owner repo path content).2)
      | Except.ok sha =>
        ((putLoop w owner repo rest (idx + 1) sha).1,
         (gh_put_file w idx owner repo path content).2 ++ (putLoop w owner repo rest (idx + 1) sha).2) := by
  show _ = _
  rcases h : (gh_put_file w idx owner repo path content) with ⟨res, ev⟩
  rw [putLoop, h]
  rcases res with f | sha <;> simp

theorem putLoop_ok (w : World) (owner repo : String)
    (hok : ∀ i, raisesForStatus (w.putResp i).1 = false ∧ ((w.putResp i).2).isSome = true) :
    ∀ (files : List (String × List Nat)) (idx : Nat) (last : String),
      (putLoop w owner repo files idx last).1 =
        Except.ok (if files.isEmpty then last else ((w.putResp (idx + files.length - 1)).2).getD "")
      ∧ putPaths (putLoop w owner repo files idx last).2 = files.map Prod.fst := by
  intro files
  induction files with
  | nil => intro idx last; simp [putLoop, putPaths]
  | cons f rest ih =>
    rcases f with ⟨path, content⟩
    intro idx last
    rw [putLoop_cons, gh_put_file_fst_ok w idx owner repo path content (hok idx).1 (hok idx).2]
    simp only [gh_put_file_snd]
    have ihh := ih (idx + 1) (((w.putResp idx).2).getD "")
    constructor
    · rw [ihh.1]
      rcases rest with _ | ⟨g, rest'⟩
      · simp
      · simp only [List.isEmpty_cons, List.length_cons, if_false, Bool.false_eq_true]
        have harith : idx + 1 + (rest'.length + 1) - 1 = idx + (rest'.length + 1 + 1) - 1 := by omega
        rw [harith]
    · simp only [List.cons_append, List.nil_append, putPaths, List.map_cons]
      simpa using ihh.2

theorem putLoop_abort (w : World) (owner repo : String) :
    ∀ (k : Nat) (files : List (String × List Nat)) (idx : Nat) (last : String),
      k < files.length →
      (∀ j, j < k →
        raisesForStatus (w.putResp (idx + j)).1 = false ∧ ((w.putResp (idx + j)).2).isSome = true) →
      raisesForStatus (w.putResp (idx + k)).1 = true →
      (putLoop w owner repo files idx last).1 = Except.error (Failure.exn "HTTPStatusError")
      ∧ putPaths (putLoop w owner repo files idx last).2 = (files.take (k + 1)).map Prod.fst := by
  intro k
  induction k with
  | zero =>
    intro files idx last hlen _ hfail
    match files, hlen with
    | (path, content) :: rest, _ =>
      simp only [Nat.add_zero] at hfail
      rw [putLoop_cons, gh_put_file_fst_err w idx owner repo path content hfail]
      simp [gh_put_file_snd, putPaths]
  | succ k ih =>
    intro files idx last hlen hpre hfail
    match files, hlen with
    | (path, content) :: rest, hlen =>
      have h0 := hpre 0 (Nat.succ_pos k)
      simp only [Nat.add_zero] at h0
      rw [putLoop_cons, gh_put_file_fst_ok w idx owner repo path content h0.1 h0.2]
      simp only [gh_put_file_snd]
      have ihh := ih rest (idx + 1) (((w.putResp idx).2).getD "") (by simpa using hlen)
        (fun j hj => by
          have := hpre (j + 1) (by omega)
          simpa [Nat.add_comm, Nat.add_left_comm] using this)
        (by simpa [Nat.add_comm, Nat.add_left_comm] using hfail)
      refine ⟨ihh.1, ?_⟩
      simp only [List.cons_append, List.nil_append, putPaths, List.take_succ_cons,
        List.map_cons]
      simpa using ihh.2

/-! ### Trace bookkeeping lemmas -/

theorem putPaths_append : ∀ (a b : List Event), putPaths (a ++ b) = putPaths a ++ putPaths b := by
  intro a b
  induction a with
  | nil => simp [putPaths]
  | cons e rest ih => cases e <;> simp [putPaths, ih]

theorem countPolls_append : ∀ (a b : List Event), countPolls (a ++ b) = countPolls a + countPolls b := by
  intro a b
  induction a with
  | nil => simp [countPolls]
  | cons e rest ih => cases e <;> simp [countPolls, ih] <;> omega

theorem countPosts_append : ∀ (a b : List Event), countPosts (a ++ b) = countPosts a + countPosts b := by
  intro a b
  induction a with
  | nil => simp [countPosts]
  | cons e rest ih => cases e <;> simp [countPosts, ih] <;> omega

theorem gh_owner_trace (cfg : Config) (w : World) :
    (gh_owner cfg w).2 = [] ∨ (gh_owner cfg w).2 = [Event.getUser] := by
  unfold gh_owner
  by_cases h1 : truthyStr cfg.owner = true
  · rw [if_pos h1]; exact Or.inl rfl
  · rw [if_neg h1]
    by_cases h2 : raisesForStatus w.userStatus = true
    · rw [if_pos h2]; exact Or.inr rfl
    · rw [if_neg h2]
      cases w.userLogin <;> exact Or.inr rfl

theorem putPaths_gh_owner (cfg : Config) (w : World) : putPaths (gh_owner cfg w).2 = [] := by
  rcases gh_owner_trace cfg w with h | h <;> rw [h] <;> rfl

theorem countPolls_gh_owner (cfg : Config) (w : World) : countPolls (gh_owner cfg w).2 = 0 := by
  rcases gh_owner_trace cfg w with h | h <;> rw [h] <;> rfl

theorem countPosts_gh_owner (cfg : Config) (w : World) : countPosts (gh_owner cfg w).2 = 0 := by
  rcases gh_owner_trace cfg w with h | h <;> rw [h] <;> rfl

theorem putPaths_pollLoop (w : World) (owner repo : String) :
    ∀ (fuel attempt : Nat) (cur : Option String),
      putPaths (pollLoop w owner repo attempt fuel cur).2 = [] := by
  intro fuel
  induction fuel with
  | zero => intro attempt cur; simp [pollLoop, putPaths]
  | succ f ih =>
    intro attempt cur
    rw [pollLoop_succ]
    by_cases h : truthyStr (gh_pages_url w attempt owner repo).1 = true
    · rw [if_pos h]; simp [gh_pages_url_snd, putPaths]
    · rw [if_neg h]
      simp only [gh_pages_url_snd, List.cons_append, List.nil_append, putPaths]
      exact ih (attempt + 1) _

theorem putPaths_backoffLoop (w : World) (url : String) (p : Payload) :
    ∀ (fuel attempt delay : Nat),
      putPaths (backoffLoop w url p attempt fuel delay).2 = [] := by
  intro fuel
  induction fuel with
  | zero => intro attempt delay; simp [backoffLoop, putPaths]
  | succ f ih =>
    intro attempt delay
    by_cases h : w.cbResp attempt = some 200
    · simp [backoffLoop, h, putPaths]
    · simp only [backoffLoop, h, if_false, putPaths]
      exact ih (attempt + 1) (delay * 2)

/-! ### Symbolic execution of the handler -/

theorem prodEqOfFst {α β : Type} (p : α × β) (a : α) (h : p.1 = a) : p = (a, p.2) := by
  cases p
  cases h
  rfl

theorem handle_spec (cfg : Config) (w : World) (req : Req) (ridx : Int)
    (owner lastCommit : String)
    (henv : need_env cfg = false)
    (hsec : req.secret = cfg.sharedSecret)
    (hround : pyInt (req.round.getD (PyVal.vint 1)) = some ridx)
    (hfields : (truthyStr req.email && truthyStr req.task && truthyStr req.nonce &&
        truthyStr req.evaluation_url) = true)
    (howner : (gh_owner cfg w).1 = Except.ok owner)
    (hcreate : (gh_create_repo w owner (repoName (req.task.getD ""))).1 = Except.ok ())
    (hput : (putLoop w owner (repoName (req.task.getD ""))
        (buildFiles w.year owner req.attachments) 0 "").1 = Except.ok lastCommit) :
    handle cfg w req =
      (HResult.ok (mkPayload w req ridx owner lastCommit),
       (gh_owner cfg w).2
         ++ (gh_create_repo w owner (repoName (req.task.getD ""))).2
         ++ (putLoop w owner (repoName (req.task.getD ""))
              (buildFiles w.year owner req.attachments) 0 "").2
         ++ (pollPages w owner (repoName (req.task.getD ""))).2
         ++ (post_with_backoff w (req.evaluation_url.getD "")
              (mkPayload w req ridx owner lastCommit)).2) := by
  have e1 : gh_owner cfg w = (Except.ok owner, (gh_owner cfg w).2) :=
    prodEqOfFst _ _ howner
  have e2 : gh_create_repo w owner (repoName (req.task.getD "")) =
      (Except.ok (), (gh_create_repo w owner (repoName (req.task.getD ""))).2) :=
    prodEqOfFst _ _ hcreate
  have e3 : putLoop w owner (repoName (req.task.getD ""))
        (buildFiles w.year owner req.attachments) 0 "" =
      (Except.ok lastCommit, (putLoop w owner (repoName (req.task.getD ""))
        (buildFiles w.year owner req.attachments) 0 "").2) :=
    prodEqOfFst _ _ hput
  rw [handle.eq_def]
  rw [if_neg (by simp [henv]), if_neg (by simp [hsec]), hround]
  simp only [hfields, Bool.not_true, Bool.false_eq_true, if_false]
  rw [e1]
  simp only []
  rw [e2]
  simp only []
  rw [e3]

theorem handle_create_fail (cfg : Config) (w : World) (req : Req) (ridx : Int)
    (owner : String) (f : Failure)
    (henv : need_env cfg = false)
    (hsec : req.secret = cfg.sharedSecret)
    (hround : pyInt (req.round.getD (PyVal.vint 1)) = some ridx)
    (hfields : (truthyStr req.email && truthyStr req.task && truthyStr req.nonce &&
        truthyStr req.evaluation_url) = true)
    (howner : (gh_owner cfg w).1 = Except.ok owner)
    (hcreate : (gh_create_repo w owner (repoName (req.task.getD ""))).1 = Except.error f) :
    handle cfg w req =
      (HResult.err f,
       (gh_owner cfg w).2 ++ (gh_create_repo w owner (repoName (req.task.getD ""))).2) := by
  have e1 : gh_owner cfg w = (Except.ok owner, (gh_owner cfg w).2) :=
    prodEqOfFst _ _ howner
  have e2 : gh_create_repo w owner (repoName (req.task.getD "")) =
      (Except.error f, (gh_create_repo w owner (repoName (req.task.getD ""))).2) :=
    prodEqOfFst _ _ hcreate
  rw [handle.eq_def]
  rw [if_neg (by simp [henv]), if_neg (by simp [hsec]), hround]
  simp only [hfields, Bool.not_true, Bool.false_eq_true, if_false]
  rw [e1]
  simp only []
  rw [e2]

theorem handle_put_fail (cfg : Config) (w : World) (req : Req) (ridx : Int)
    (owner : String) (f : Failure)
    (henv : need_env cfg = false)
    (hsec : req.secret = cfg.sharedSecret)
    (hround : pyInt (req.round.getD (PyVal.vint 1)) = some ridx)
    (hfields : (truthyStr req.email && truthyStr req.task && truthyStr req.nonce &&
        truthyStr req.evaluation_url) = true)
    (howner : (gh_owner cfg w).1 = Except.ok owner)
    (hcreate : (gh_create_repo w owner (repoName (req.task.getD ""))).1 = Except.ok ())
    (hput : (putLoop w owner (repoName (req.task.getD ""))
        (buildFiles w.year owner req.attachments) 0 "").1 = Except.error f) :
    handle cfg w req =
      (HResult.err f,
       (gh_owner cfg w).2
         ++ (gh_create_repo w owner (repoName (req.task.getD ""))).2
         ++ (putLoop w owner (repoName (req.task.getD ""))
              (buildFiles w.year owner req.attachments) 0 "").2) := by
  have e1 : gh_owner cfg w = (Except.ok owner, (gh_owner cfg w).2) :=
    prodEqOfFst _ _ howner
  have e2 : gh_create_repo w owner (repoName (req.task.getD "")) =
      (Except.ok (), (gh_create_repo w owner (repoName (req.task.getD ""))).2) :=
    prodEqOfFst _ _ hcreate
  have e3 : putLoop w owner (repoName (req.task.getD ""))
        (buildFiles w.year owner req.attachments) 0 "" =
      (Except.error f, (putLoop w owner (repoName (req.task.getD ""))
        (buildFiles w.year owner req.attachments) 0 "").2) :=
    prodEqOfFst _ _ hput
  rw [handle.eq_def]
  rw [if_neg (by simp [henv]), if_neg (by simp [hsec]), hround]
  simp only [hfields, Bool.not_true, Bool.false_eq_true, if_false]
  rw [e1]
  simp only []
  rw [e2]
  simp only []
  rw [e3]

/-! ### Concrete configurations, worlds and requests used to instantiate
the theorems below -/

/-- A configured deployment: token, shared secret and owner override all
set. -/
def cfgGood : Config := { ghToken := some "t", sharedSecret := some "s", owner := some "alice" }

/-- A payload value used to exercise the callback deliverer. -/
def pl0 : Payload :=
  { email := "e@x", task := "a/b", round := 1, nonce := "n",
    repo_url := "https://github.com/alice/a-b", commit_sha := "sha4",
    pages_url := "https://x.github.io/y/" }

/-- A world where every platform call succeeds, the pages URL appears on
the 12th poll, and the callback endpoint fails the first 5 attempts and
returns 200 on the 6th. -/
def wGood : World :=
  { userStatus := 200, userLogin := some "alice",
    createStatus := 201, createText := "",
    putResp := fun i => (200, some (String.append "sha" (toString i))),
    pagesResp := fun i => if i = 11 then (200, some "https://x.github.io/y/") else (404, none),
    cbResp := fun i => if i = 5 then some 200 else some 500,
    year := 2026 }

/-- A world where the pages URL never appears and the callback endpoint
never returns 200. -/
def wDegraded : World :=
  { userStatus := 200, userLogin := some "alice",
    createStatus := 201, createText := "",
    putResp := fun i => (200, some (String.append "sha" (toString i))),
    pagesResp := fun _ => (404, none),
    cbResp := fun _ => some 500,
    year := 2026 }

/-- A request carrying all required fields, the matching secret and no
attachments. -/
def reqGood : Req :=
  { secret := some "s", email := some "e@x", task := some "a/b", nonce := some "n",
    evaluation_url := some "http://cb", round := none, attachments := [] }

/-! ### C1 -/

/-- C1: callback delivery POSTs the result payload at most 6 times;
between failed attempts it sleeps with doubling delays starting at 1
time-unit; success is exactly an HTTP 200 response (any other status or
an exception is a swallowed failed attempt); and when the endpoint fails
the first 5 attempts and returns 200 on the 6th, delivery succeeds with
6 attempts and a cumulative inter-attempt delay of 1+2+4+8+16 = 31 ≥ 31
time-units. -/
theorem c1_callback_backoff (w : World) (url : String) (p : Payload) :
    countPosts (post_with_backoff w url p).2 ≤ 6
    ∧ ((post_with_backoff w url p).1 = true ↔ ∃ i, i < 6 ∧ w.cbResp i = some 200)
    ∧ (∃ n, n ≤ 6 ∧ sleepList (post_with_backoff w url p).2 =
        (List.range n).map (fun j => 2 ^ j))
    ∧ ((∀ j, j < 5 → w.cbResp j ≠ some 200) → w.cbResp 5 = some 200 →
        (post_with_backoff w url p).1 = true
        ∧ countPosts (post_with_backoff w url p).2 = 6
        ∧ sleepList (post_with_backoff w url p).2 = [1, 2, 4, 8, 16]
        ∧ 31 ≤ sleepTotal (post_with_backoff w url p).2) := by
  refine ⟨countPosts_backoffLoop_le w url p 6 0 1, ?_, ?_, ?_⟩
  · simpa using backoffLoop_true_iff w url p 6 0 1
  · simpa using backoffLoop_sleep_doubling w url p 6 0 1
  · intro hfail hsucc
    have h := backoffLoop_first_success w url p 5 6 0 1 (by omega)
      (fun j hj => by simpa using hfail j hj) (by simpa using hsucc)
    refine ⟨h.1, h.2.1, ?_, ?_⟩
    · have := h.2.2
      rw [post_with_backoff, this]
      decide
    · rw [sleepTotal_eq_sum_sleepList, post_with_backoff, h.2.2]
      decide

/-- Closed instance of `c1_callback_backoff` at a concrete world whose
callback endpoint fails five times and then returns 200. -/
theorem c1_callback_backoff_witness :
    (post_with_backoff wGood "http://cb" pl0).1 = true
    ∧ countPosts (post_with_backoff wGood "http://cb" pl0).2 = 6
    ∧ sleepList (post_with_backoff wGood "http://cb" pl0).2 = [1, 2, 4, 8, 16]
    ∧ 31 ≤ sleepTotal (post_with_backoff wGood "http://cb" pl0).2 :=
  (c1_callback_backoff wGood "http://cb" pl0).2.2.2
    (by intro j hj; interval_cases j <;> decide) (by decide)

/-! ### C2 -/

/-- C2: the pages-availability poller queries the pages-status endpoint
at most 12 times, every inter-attempt delay is the fixed 5 time-units, a
non-200 response yields no URL (not-yet-available, not an error), the
poller returns the discovered URL on the first attempt yielding one (in
particular, a URL first appearing on the 12th poll is returned after
exactly 12 polls), and when every poll is non-200 the handler's payload
falls back to the constructed default
`https://{owner}.github.io/{repo}/`. -/
theorem c2_pages_poller (w : World) (owner repo : String) :
    countPolls (pollPages w owner repo).2 ≤ 12
    ∧ (∀ s, s ∈ sleepList (pollPages w owner repo).2 → s = 5)
    ∧ (∀ i, (w.pagesResp i).1 ≠ 200 → (gh_pages_url w i owner repo).1 = none)
    ∧ (∀ k u, k < 12 → (∀ j, j < k → truthyStr (gh_pages_url w j owner repo).1 = false) →
        w.pagesResp k = (200, some u) → u ≠ "" →
        (pollPages w owner repo).1 = some u ∧ countPolls (pollPages w owner repo).2 = k + 1)
    ∧ (∀ (cfg : Config) (req : Req) (ridx : Int) (own lastCommit : String),
        need_env cfg = false → req.secret = cfg.sharedSecret →
        pyInt (req.round.getD (PyVal.vint 1)) = some ridx →
        (truthyStr req.email && truthyStr req.task && truthyStr req.nonce &&
          truthyStr req.evaluation_url) = true →
        (gh_owner cfg w).1 = Except.ok own →
        (gh_create_repo w own (repoName (req.task.getD ""))).1 = Except.ok () →
        (putLoop w own (repoName (req.task.getD ""))
          (buildFiles w.year own req.attachments) 0 "").1 = Except.ok lastCommit →
        (∀ i, (w.pagesResp i).1 ≠ 200) →
        (handle cfg w req).1 = HResult.ok (mkPayload w req ridx own lastCommit)
        ∧ (mkPayload w req ridx own lastCommit).pages_url =
            "https://" ++ own ++ ".github.io/" ++ repoName (req.task.getD "") ++ "/") := by
  refine ⟨countPolls_pollLoop_le w owner repo 12 0 none,
    fun s hs => sleepList_pollLoop w owner repo 12 0 none s hs, ?_, ?_, ?_⟩
  · intro i h
    simp [gh_pages_url, h]
  · intro k u hk hfail h200 hne
    have hue : u.isEmpty = false := by
      cases habs : u.isEmpty
      · rfl
      · exact absurd ((String.isEmpty_iff u).mp habs) hne
    have hsucc : truthyStr (gh_pages_url w (0 + k) owner repo).1 = true := by
      simp [gh_pages_url, h200, truthyStr, hue]
    have h := pollLoop_first_success w owner repo k 12 0 none hk
      (fun j hj => by simpa using hfail j hj) hsucc
    refine ⟨?_, h.2⟩
    rw [show pollPages w owner repo = pollLoop w owner repo 0 12 none from rfl, h.1]
    simp [gh_pages_url, h200]
  · intro cfg req ridx own lastCommit henv hsec hround hfields howner hcreate hput hnon
    have hfalsy : ∀ j, truthyStr (gh_pages_url w j own (repoName (req.task.getD ""))).1 = false := by
      intro j
      simp [gh_pages_url, hnon j, truthyStr]
    have hex := pollLoop_exhaust w own (repoName (req.task.getD "")) 12 0 none
      (fun j _ => by simpa using hfalsy j) rfl
    constructor
    · have hs := handle_spec cfg w req ridx own lastCommit henv hsec hround hfields
        howner hcreate hput
      rw [hs]
    · simp only [mkPayload]
      rw [if_neg ?_]
      exact fun habs => by
        rw [show pollPages w own (repoName (req.task.getD "")) =
          pollLoop w own (repoName (req.task.getD "")) 0 12 none from rfl] at habs
        rw [hex.1] at habs
        exact Bool.false_ne_true habs

/-- Closed instance of `c2_pages_poller`: in `wGood` the URL first
appears on the 12th poll and is returned; in `wDegraded` every poll is
non-200 and the handler's payload carries the constructed default. -/
theorem c2_pages_poller_witness :
    ((pollPages wGood "alice" "a-b").1 = some "https://x.github.io/y/"
      ∧ countPolls (pollPages wGood "alice" "a-b").2 = 12)
    ∧ ((handle cfgGood wDegraded reqGood).1 =
        HResult.ok (mkPayload wDegraded reqGood 1 "alice" "sha3")
      ∧ (mkPayload wDegraded reqGood 1 "alice" "sha3").pages_url =
          "https://" ++ "alice" ++ ".github.io/" ++ repoName (reqGood.task.getD "") ++ "/") :=
  ⟨by
    have h := (c2_pages_poller wGood "alice" "a-b").2.2.2.1 11 "https://x.github.io/y/"
      (by omega) (by intro j hj; interval_cases j <;> decide) (by decide) (by decide)
    exact ⟨h.1, h.2⟩,
   (c2_pages_poller wDegraded "alice" "a-b").2.2.2.2 cfgGood reqGood 1 "alice" "sha3"
    (by decide) (by decide) (by decide) (by decide) (by rfl) (by rfl) (by rfl)
    (by intro i; simp [wDegraded])⟩

/-! ### C3 -/

/-- C3: for every request whose secret does not match the configured
shared secret (on a deployment whose environment passes `_need_env`),
the handler responds 403 "Invalid secret" and makes no upstream call. -/
theorem c3_secret_mismatch (cfg : Config) (w : World) (req : Req)
    (henv : need_env cfg = false)
    (hsec : req.secret ≠ cfg.sharedSecret) :
    handle cfg w req = (HResult.err (Failure.httpException 403 "Invalid secret"), [])
    ∧ hasUpstreamCall (handle cfg w req).2 = false := by
  have h : handle cfg w req =
      (HResult.err (Failure.httpException 403 "Invalid secret"), []) := by
    rw [handle.eq_def]
    rw [if_neg (by simp [henv]), if_pos hsec]
  exact ⟨h, by rw [h]; rfl⟩

/-- Closed instance of `c3_secret_mismatch` at a concrete mismatched
secret. -/
theorem c3_secret_mismatch_witness :
    handle cfgGood wGood { reqGood with secret := some "wrong" } =
      (HResult.err (Failure.httpException 403 "Invalid secret"), [])
    ∧ hasUpstreamCall (handle cfgGood wGood { reqGood with secret := some "wrong" }).2 = false :=
  c3_secret_mismatch cfgGood wGood { reqGood with secret := some "wrong" }
    (by decide) (by decide)

/-! ### C4 -/

theorem gh_create_repo_snd (w : World) (owner repo : String) :
    (gh_create_repo w owner repo).2 = [Event.createRepo owner repo] := rfl

theorem countPolls_putLoop (w : World) (owner repo : String) :
    ∀ (files : List (String × List Nat)) (idx : Nat) (last : String),
      countPolls (putLoop w owner repo files idx last).2 = 0 := by
  intro files
  induction files with
  | nil => intro idx last; simp [putLoop, countPolls]
  | cons f rest ih =>
    rcases f with ⟨path, content⟩
    intro idx last
    rw [putLoop_cons]
    rcases h : (gh_put_file w idx owner repo path content).1 with f' | sha
    · simp [gh_put_file_snd, countPolls]
    · simp only [gh_put_file_snd, List.cons_append, List.nil_append, countPolls]
      exact ih (idx + 1) sha

theorem countPosts_putLoop (w : World) (owner repo : String) :
    ∀ (files : List (String × List Nat)) (idx : Nat) (last : String),
      countPosts (putLoop w owner repo files idx last).2 = 0 := by
  intro files
  induction files with
  | nil => intro idx last; simp [putLoop, countPosts]
  | cons f rest ih =>
    rcases f with ⟨path, content⟩
    intro idx last
    rw [putLoop_cons]
    rcases h : (gh_put_file w idx owner repo path content).1 with f' | sha
    · simp [gh_put_file_snd, countPosts]
    · simp only [gh_put_file_snd, List.cons_append, List.nil_append, countPosts]
      exact ih (idx + 1) sha

/-- C5: an "already exists" response text makes repository creation
succeed whatever the status (so re-submitting the same task identifier
does not fail the request), status 201 succeeds, and any other response
without "exists" in its text is a fatal 500 that aborts the request
before any file write, poll or callback. -/
theorem c5_create_repo_exists (w : World) (owner repo : String) :
    (strContains (lowerStr w.createText) "exists" = true →
      (gh_create_repo w owner repo).1 = Except.ok ())
    ∧ (w.createStatus = 201 → (gh_create_repo w owner repo).1 = Except.ok ())
    ∧ (w.createStatus ≠ 201 → strContains (lowerStr w.createText) "exists" = false →
      (gh_create_repo w owner repo).1 =
        Except.error (Failure.httpException 500 ("Create repo failed: " ++ w.createText)))
    ∧ (∀ (cfg : Config) (req : Req) (ridx : Int) (own : String),
        need_env cfg = false → req.secret = cfg.sharedSecret →
        pyInt (req.round.getD (PyVal.vint 1)) = some ridx →
        (truthyStr req.email && truthyStr req.task && truthyStr req.nonce &&
          truthyStr req.evaluation_url) = true →
        (gh_owner cfg w).1 = Except.ok own →
        w.createStatus ≠ 201 → strContains (lowerStr w.createText) "exists" = false →
        handle cfg w req =
          (HResult.err (Failure.httpException 500 ("Create repo failed: " ++ w.createText)),
           (gh_owner cfg w).2 ++ [Event.createRepo own (repoName (req.task.getD ""))])
        ∧ putPaths (handle cfg w req).2 = []
        ∧ countPolls (handle cfg w req).2 = 0
        ∧ countPosts (handle cfg w req).2 = 0) := by
  refine ⟨?_, ?_, ?_, ?_⟩
  · intro h; simp [gh_create_repo, h]
  · intro h; simp [gh_create_repo, h]
  · intro h201 hex; simp [gh_create_repo, h201, hex]
  · intro cfg req ridx own henv hsec hround hfields howner h201 hex
    have hcreate : (gh_create_repo w own (repoName (req.task.getD ""))).1 =
        Except.error (Failure.httpException 500 ("Create repo failed: " ++ w.createText)) := by
      simp [gh_create_repo, h201, hex]
    have he := handle_create_fail cfg w req ridx own _ henv hsec hround hfields howner hcreate
    rw [gh_create_repo_snd] at he
    refine ⟨he, ?_, ?_, ?_⟩
    · rw [he]
      simp [putPaths_append, putPaths_gh_owner, putPaths]
    · rw [he]
      simp [countPolls_append, countPolls_gh_owner, countPolls]
    · rw [he]
      simp [countPosts_append, countPosts_gh_owner, countPosts]

/-- A world whose repository-creation call answers 422 with an
"already exists" message. -/
def wExists : World :=
  { wGood with createStatus := 422, createText := "Repository name already EXISTS on this account" }

/-- A world whose repository-creation call answers 403 with no
"exists" in the response text. -/
def wCreateFail : World :=
  { wGood with createStatus := 403, createText := "forbidden" }

/-- Closed instance of `c5_create_repo_exists`: a 422 "already exists"
response is success; a 403 "forbidden" aborts the request with the 500
and no file write, poll or callback. -/
theorem c5_create_repo_exists_witness :
    (gh_create_repo wExists "alice" "a-b").1 = Except.ok ()
    ∧ (handle cfgGood wCreateFail reqGood =
        (HResult.err (Failure.httpException 500 ("Create repo failed: " ++ wCreateFail.createText)),
         (gh_owner cfgGood wCreateFail).2 ++ [Event.createRepo "alice" (repoName (reqGood.task.getD ""))])
      ∧ putPaths (handle cfgGood wCreateFail reqGood).2 = []
      ∧ countPolls (handle cfgGood wCreateFail reqGood).2 = 0
      ∧ countPosts (handle cfgGood wCreateFail reqGood).2 = 0) :=
  ⟨(c5_create_repo_exists wExists "alice" "a-b").1 (by decide),
   (c5_create_repo_exists wCreateFail "alice" "a-b").2.2.2 cfgGood reqGood 1 "alice"
    (by decide) (by decide) (by decide) (by decide) (by rfl) (by decide) (by decide)⟩

/-! ### C6 -/

/-- C6: an attachment whose url is not a well-formed base64 data URI is
dropped before publication — the handler behaves exactly as if the
attachment were absent, surfacing no error — while the four fixed files
and all well-formed attachments still publish; the spec's example
`"not-a-data-uri"` indeed fails to parse. -/
theorem c6_malformed_attachment_dropped :
    (∀ (name u : String) (atts : List Att), parse_data_uri u = none →
      attachLoop (({ name := some name, url := some u } : Att) :: atts) = attachLoop atts)
    ∧ parse_data_uri "not-a-data-uri" = none
    ∧ (∀ (cfg : Config) (w : World) (sec em ta no ev : Option String) (ro : Option PyVal)
        (name u : String) (rest : List Att), parse_data_uri u = none →
        handle cfg w ⟨sec, em, ta, no, ev, ro, ⟨some name, some u⟩ :: rest⟩ =
          handle cfg w ⟨sec, em, ta, no, ev, ro, rest⟩)
    ∧ (∀ (cfg : Config) (w : World) (req : Req) (ridx : Int) (own : String),
        need_env cfg = false → req.secret = cfg.sharedSecret →
        pyInt (req.round.getD (PyVal.vint 1)) = some ridx →
        (truthyStr req.email && truthyStr req.task && truthyStr req.nonce &&
          truthyStr req.evaluation_url) = true →
        (gh_owner cfg w).1 = Except.ok own →
        (gh_create_repo w own (repoName (req.task.getD ""))).1 = Except.ok () →
        (∀ i, raisesForStatus (w.putResp i).1 = false ∧ ((w.putResp i).2).isSome = true) →
        ∃ lastCommit,
          (handle cfg w req).1 = HResult.ok (mkPayload w req ridx own lastCommit)
          ∧ putPaths (handle cfg w req).2 =
              ["LICENSE", "README.md", ".github/workflows/pages.yml", "index.html"]
                ++ (attachLoop req.attachments).map Prod.fst) := by
  refine ⟨?_, by decide, ?_, ?_⟩
  · intro name u atts hbad
    simp [attachLoop, hbad]
  · intro cfg w sec em ta no ev ro name u rest hbad
    have hdrop : ∀ (y : Nat) (o : String),
        buildFiles y o (({ name := some name, url := some u } : Att) :: rest) =
          buildFiles y o rest := by
      intro y o
      simp [buildFiles, attachLoop, hbad]
    have hmk : mkPayload w ⟨sec, em, ta, no, ev, ro,
          ({ name := some name, url := some u } : Att) :: rest⟩ =
        mkPayload w ⟨sec, em, ta, no, ev, ro, rest⟩ := by
      funext ridx own lastCommit
      rfl
    simp only [handle.eq_def, hdrop, hmk]
  · intro cfg w req ridx own henv hsec hround hfields howner hcreate hok
    have hp := putLoop_ok w own (repoName (req.task.getD "")) hok
      (buildFiles w.year own req.attachments) 0 ""
    refine ⟨(if (buildFiles w.year own req.attachments).isEmpty = true then ""
      else ((w.putResp (0 + (buildFiles w.year own req.attachments).length - 1)).2).getD ""),
      ?_, ?_⟩
    · rw [handle_spec cfg w req ridx own _ henv hsec hround hfields howner hcreate hp.1]
    · rw [handle_spec cfg w req ridx own _ henv hsec hround hfields howner hcreate hp.1]
      simp only [putPaths_append, putPaths_gh_owner, gh_create_repo_snd,
        putPaths_pollLoop, putPaths_backoffLoop, putPaths]
      rw [hp.2]
      simp [buildFiles, fixedFiles, putPaths_pollLoop, putPaths_backoffLoop,
        pollPages, post_with_backoff]

/-- A request carrying one malformed and one well-formed attachment. -/
def reqAtt : Req :=
  { reqGood with attachments :=
      [{ name := some "x.txt", url := some "not-a-data-uri" },
       { name := some "ok.txt", url := some "data:text/plain;base64,aGk=" }] }

/-- Closed instance of `c6_malformed_attachment_dropped`: the malformed
attachment is dropped from the file list, and the handler publishes the
four fixed files plus the well-formed attachment and succeeds. -/
theorem c6_malformed_attachment_dropped_witness :
    attachLoop reqAtt.attachments = [("ok.txt", [104, 105])]
    ∧ (∃ lastCommit,
        (handle cfgGood wGood reqAtt).1 = HResult.ok (mkPayload wGood reqAtt 1 "alice" lastCommit)
        ∧ putPaths (handle cfgGood wGood reqAtt).2 =
            ["LICENSE", "README.md", ".github/workflows/pages.yml", "index.html"]
              ++ (attachLoop reqAtt.attachments).map Prod.fst) :=
  ⟨by
    have h := c6_malformed_attachment_dropped.1 "x.txt" "not-a-data-uri"
      [{ name := some "ok.txt", url := some "data:text/plain;base64,aGk=" }] (by decide)
    rw [show reqAtt.attachments =
      ({ name := some "x.txt", url := some "not-a-data-uri" } : Att) ::
        [{ name := some "ok.txt", url := some "data:text/plain;base64,aGk=" }] from rfl, h]
    decide,
   c6_malformed_attachment_dropped.2.2.2 cfgGood wGood reqAtt 1 "alice"
    (by decide) (by decide) (by decide) (by decide) (by rfl) (by rfl)
    (fun i => ⟨rfl, rfl⟩)⟩

/-! ### C7 -/

/-- C7: files are published one at a time in a fixed order — the four
fixed entries first, then decoded attachments in caller order — each
write independent with no rollback: when every write succeeds the put
trace lists exactly the file paths in order and the returned commit is
that of the last write; a failing write aborts immediately, the trace
stopping at the failed file; and at handler level the payload's
commit_sha is the publication loop's last commit, while a publication
failure aborts the request before any poll or callback. -/
theorem c7_sequential_publication (w : World) (owner repo : String) :
    (∀ (year : Nat) (own : String) (atts : List Att),
      (buildFiles year own atts).map Prod.fst =
        ["LICENSE", "README.md", ".github/workflows/pages.yml", "index.html"]
          ++ (attachLoop atts).map Prod.fst)
    ∧ ((∀ i, raisesForStatus (w.putResp i).1 = false ∧ ((w.putResp i).2).isSome = true) →
      ∀ (files : List (String × List Nat)) (idx : Nat) (last : String),
        putPaths (putLoop w owner repo files idx last).2 = files.map Prod.fst
        ∧ (putLoop w owner repo files idx last).1 =
            Except.ok (if files.isEmpty then last
              else ((w.putResp (idx + files.length - 1)).2).getD ""))
    ∧ (∀ (k : Nat) (files : List (String × List Nat)) (idx : Nat) (last : String),
        k < files.length →
        (∀ j, j < k → raisesForStatus (w.putResp (idx + j)).1 = false ∧
          ((w.putResp (idx + j)).2).isSome = true) →
        raisesForStatus (w.putResp (idx + k)).1 = true →
        (putLoop w owner repo files idx last).1 = Except.error (Failure.exn "HTTPStatusError")
        ∧ putPaths (putLoop w owner repo files idx last).2 = (files.take (k + 1)).map Prod.fst)
    ∧ (∀ (cfg : Config) (req : Req) (ridx : Int) (own lastCommit : String),
        need_env cfg = false → req.secret = cfg.sharedSecret →
        pyInt (req.round.getD (PyVal.vint 1)) = some ridx →
        (truthyStr req.email && truthyStr req.task && truthyStr req.nonce &&
          truthyStr req.evaluation_url) = true →
        (gh_owner cfg w).1 = Except.ok own →
        (gh_create_repo w own (repoName (req.task.getD ""))).1 = Except.ok () →
        (putLoop w own (repoName (req.task.getD ""))
          (buildFiles w.year own req.attachments) 0 "").1 = Except.ok lastCommit →
        (handle cfg w req).1 = HResult.ok (mkPayload w req ridx own lastCommit)
        ∧ (mkPayload w req ridx own lastCommit).commit_sha = lastCommit)
    ∧ (∀ (cfg : Config) (req : Req) (ridx : Int) (own : String) (f : Failure),
        need_env cfg = false → req.secret = cfg.sharedSecret →
        pyInt (req.round.getD (PyVal.vint 1)) = some ridx →
        (truthyStr req.email && truthyStr req.task && truthyStr req.nonce &&
          truthyStr req.evaluation_url) = true →
        (gh_owner cfg w).1 = Except.ok own →
        (gh_create_repo w own (repoName (req.task.getD ""))).1 = Except.ok () →
        (putLoop w own (repoName (req.task.getD ""))
          (buildFiles w.year own req.attachments) 0 "").1 = Except.error f →
        (handle cfg w req).1 = HResult.err f
        ∧ countPolls (handle cfg w req).2 = 0
        ∧ countPosts (handle cfg w req).2 = 0) := by
  refine ⟨?_, ?_, ?_, ?_, ?_⟩
  · intro year own atts
    simp [buildFiles, fixedFiles]
  · intro hok files idx last
    exact ⟨(putLoop_ok w owner repo hok files idx last).2,
      (putLoop_ok w owner repo hok files idx last).1⟩
  · intro k files idx last hlen hpre hfail
    exact putLoop_abort w owner repo k files idx last hlen hpre hfail
  · intro cfg req ridx own lastCommit henv hsec hround hfields howner hcreate hput
    refine ⟨?_, rfl⟩
    rw [handle_spec cfg w req ridx own lastCommit henv hsec hround hfields howner hcreate hput]
  · intro cfg req ridx own f henv hsec hround hfields howner hcreate hput
    have he := handle_put_fail cfg w req ridx own f henv hsec hround hfields howner hcreate hput
    refine ⟨by rw [he], ?_, ?_⟩
    · rw [he]
      simp [countPolls_append, countPolls_gh_owner, gh_create_repo_snd,
        countPolls_putLoop, countPolls]
    · rw [he]
      simp [countPosts_append, countPosts_gh_owner, gh_create_repo_snd,
        countPosts_putLoop, countPosts]

/-- A world whose third file write (index 2) fails with a 500. -/
def wPutFail : World :=
  { wGood with putResp := fun i =>
      if i = 2 then (500, none) else (200, some (String.append "sha" (toString i))) }

/-- Closed instance of `c7_sequential_publication`: with every write
succeeding the four fixed files publish in order and the handler's
payload carries the last write's commit; with the third write failing,
publication aborts after three writes and no poll or callback happens. -/
theorem c7_sequential_publication_witness :
    (putPaths (putLoop wGood "alice" "a-b" (buildFiles 2026 "alice" []) 0 "").2 =
        ["LICENSE", "README.md", ".github/workflows/pages.yml", "index.html"]
      ∧ (handle cfgGood wGood reqGood).1 = HResult.ok (mkPayload wGood reqGood 1 "alice" "sha3")
      ∧ (mkPayload wGood reqGood 1 "alice" "sha3").commit_sha = "sha3")
    ∧ ((putLoop wPutFail "alice" "a-b" (buildFiles wPutFail.year "alice" []) 0 "").1 =
        Except.error (Failure.exn "HTTPStatusError")
      ∧ putPaths (putLoop wPutFail "alice" "a-b" (buildFiles wPutFail.year "alice" []) 0 "").2 =
          ["LICENSE", "README.md", ".github/workflows/pages.yml"]
      ∧ countPolls (handle cfgGood wPutFail reqGood).2 = 0
      ∧ countPosts (handle cfgGood wPutFail reqGood).2 = 0) := by
  constructor
  · refine ⟨?_, ?_⟩
    · have h := ((c7_sequential_publication wGood "alice" "a-b").2.1
        (fun i => ⟨rfl, rfl⟩) (buildFiles 2026 "alice" []) 0 "").1
      rw [h]
      decide
    · exact (c7_sequential_publication wGood "alice" "a-b").2.2.2.1 cfgGood reqGood 1
        "alice" "sha3" (by decide) (by decide) (by decide) (by decide) (by rfl) (by rfl)
        (by rfl)
  · have habort := (c7_sequential_publication wPutFail "alice" "a-b").2.2.1 2
      (buildFiles wPutFail.year "alice" []) 0 "" (by decide)
      (by intro j hj; interval_cases j <;> exact ⟨rfl, rfl⟩) (by rfl)
    have hhandle := (c7_sequential_publication wPutFail "alice" "a-b").2.2.2.2 cfgGood reqGood 1
      "alice" (Failure.exn "HTTPStatusError") (by decide) (by decide) (by decide) (by decide)
      (by rfl) (by rfl) (by rw [show repoName (reqGood.task.getD "") = "a-b" from rfl]; exact habort.1)
    refine ⟨habort.1, ?_, hhandle.2.1, hhandle.2.2⟩
    rw [habort.2]
    decide

/-! ### C8 -/

/-- C8: failure of callback delivery after all retry attempts is
silently absorbed — even when the endpoint never answers 200 (so
delivery returns `False`), the handler's own response is the success
response carrying the locally-known result payload. -/
theorem c8_callback_failure_absorbed (cfg : Config) (w : World) (req : Req) (ridx : Int)
    (own lastCommit : String)
    (henv : need_env cfg = false)
    (hsec : req.secret = cfg.sharedSecret)
    (hround : pyInt (req.round.getD (PyVal.vint 1)) = some ridx)
    (hfields : (truthyStr req.email && truthyStr req.task && truthyStr req.nonce &&
        truthyStr req.evaluation_url) = true)
    (howner : (gh_owner cfg w).1 = Except.ok own)
    (hcreate : (gh_create_repo w own (repoName (req.task.getD ""))).1 = Except.ok ())
    (hput : (putLoop w own (repoName (req.task.getD ""))
        (buildFiles w.year own req.attachments) 0 "").1 = Except.ok lastCommit)
    (hcb : ∀ i, w.cbResp i ≠ some 200) :
    (post_with_backoff w (req.evaluation_url.getD "")
        (mkPayload w req ridx own lastCommit)).1 = false
    ∧ (handle cfg w req).1 = HResult.ok (mkPayload w req ridx own lastCommit) := by
  constructor
  · cases hb : (post_with_backoff w (req.evaluation_url.getD "")
      (mkPayload w req ridx own lastCommit)).1
    · rfl
    · exfalso
      obtain ⟨i, _, hi⟩ := (backoffLoop_true_iff w (req.evaluation_url.getD "")
        (mkPayload w req ridx own lastCommit) 6 0 1).mp hb
      exact hcb (0 + i) hi
  · rw [handle_spec cfg w req ridx own lastCommit henv hsec hround hfields howner hcreate hput]

/-- Closed instance of `c8_callback_failure_absorbed` at a world whose
callback endpoint always answers 500. -/
theorem c8_callback_failure_absorbed_witness :
    (post_with_backoff wDegraded (reqGood.evaluation_url.getD "")
        (mkPayload wDegraded reqGood 1 "alice" "sha3")).1 = false
    ∧ (handle cfgGood wDegraded reqGood).1 =
        HResult.ok (mkPayload wDegraded reqGood 1 "alice" "sha3") :=
  c8_callback_failure_absorbed cfgGood wDegraded reqGood 1 "alice" "sha3"
    (by decide) (by decide) (by decide) (by decide) (by rfl) (by rfl) (by rfl)
    (by intro i; simp [wDegraded])

/-! ### C9 -/

/-- C9: repository-name derivation is the deterministic character map
replacing every `/` by `-` (so the result never contains `/`), and in
particular task `"a/b"` yields `"a-b"`. -/
theorem c9_repo_name_derivation :
    repoName "a/b" = "a-b"
    ∧ (∀ t : String, (repoName t).data =
        t.data.map (fun c => if c = '/' then '-' else c))
    ∧ (∀ t : String, '/' ∉ (repoName t).data) := by
  refine ⟨by decide, fun t => rfl, fun t => ?_⟩
  simp only [repoName, List.mem_map, not_exists]
  rintro c ⟨_, hc⟩
  by_cases h : c = '/' <;> simp [h] at hc

/-- Closed instance of `c9_repo_name_derivation`. -/
theorem c9_repo_name_derivation_witness :
    repoName "a/b" = "a-b" ∧ '/' ∉ (repoName "a/b").data :=
  ⟨c9_repo_name_derivation.1, c9_repo_name_derivation.2.2 "a/b"⟩

/-! ### C10 -/

end CaptchaSolver
